import Mathlib

/-!
# Verification of the parallel tool-dispatch layer

Shallow embedding of `src/tools/parallel_tool.py` (the tool registry, the
single-call executor `execute_single_search`, the concurrent dispatcher
`parallel_search` and the result formatter / `truncate_result`) of the
multi-tool research agent, together with proofs and refutations of the
frozen specification claims about that layer.

Modelling conventions:
* Parsed JSON values (`json.loads` output) are the inductive `JVal`; a
  Python `dict` is an association list of key/value pairs.
* Python strings are Lean `String`s (a wrapper around `List Char`); the
  structural operations (slicing, `rfind`, `lower`, `upper`) are defined
  below on the underlying character lists.
* A Python function that may raise is modelled with `Except`: an uncaught
  exception is `Except.error`.  The four leaf tool functions (`web_search`,
  `search_wikipedia`, `search_news`, `search_arxiv`) are external network
  collaborators, abstracted as an environment `Env` of functions
  `JVal → Except String String` (`.error msg` models the function raising
  an exception whose `str()` is `msg`).
* `ThreadPoolExecutor` fan-out: each submitted request is executed by
  `execute_single_search`; `as_completed` yields every future exactly once,
  in completion order.  The embedding executes the requests sequentially in
  submission order, which is one of the admissible completion orders; the
  claims proved about the batch (result counts, per-request results,
  summary counters) are invariant under the order in which the futures
  complete.  The 60-second wall-clock batch timeout (`PARALLEL_TIMEOUT`)
  is real time and is outside the embedding: the embedding models the runs
  in which every worker completes before the deadline.
-/

/-- A parsed JSON value, the result of `json.loads`.  Python `dict`s are
modelled as association lists (insertion order, no duplicate keys in any
value produced by `json.loads`). -/
inductive JVal where
  | jnull : JVal
  | jbool : Bool → JVal
  | jnum : Int → JVal
  | jstr : String → JVal
  | jarr : List JVal → JVal
  | jobj : List (String × JVal) → JVal
deriving Repr

/-- An uncaught Python exception escaping a modelled function. -/
inductive PyErr where
  | attributeError : String → PyErr
  | typeError : String → PyErr
deriving Repr, DecidableEq

/-- The external tool functions imported at the top of `parallel_tool.py`
(`web_search`, `search_wikipedia`, `search_news`, `search_arxiv`).  Each is
an opaque collaborator with contract `(query: string) -> string` that may
raise; `.error msg` models a raised exception with message `msg`. -/
structure Env where
  web : JVal → Except String String
  wikipedia : JVal → Except String String
  news : JVal → Except String String
  arxiv : JVal → Except String String

/-- ASCII lowercasing of one character, the behaviour of Python's
`str.lower` on the ASCII range (every registered tool kind is ASCII). -/
def pyLowerChar (c : Char) : Char :=
  if c.toNat ≥ 65 ∧ c.toNat ≤ 90 then Char.ofNat (c.toNat + 32) else c

/-- ASCII uppercasing of one character (Python's `str.upper` on ASCII). -/
def pyUpperChar (c : Char) : Char :=
  if c.toNat ≥ 97 ∧ c.toNat ≤ 122 then Char.ofNat (c.toNat - 32) else c

/-- Python `s.lower()` for a string value. -/
def pyLower (s : String) : String := ⟨s.data.map pyLowerChar⟩

/-- Python `d.get(key, default)`.  Defined on dictionaries; on any other
value `.get` raises `AttributeError`. -/
def pyGet (v : JVal) (key : String) (dflt : JVal) : Except PyErr JVal :=
  match v with
  | .jobj kvs => .ok ((kvs.lookup key).getD dflt)
  | _ => .error (.attributeError ("object has no attribute " ++ "get"))

/-- Python truthiness (`if not x`). -/
def pyTruthy : JVal → Bool
  | .jnull => false
  | .jbool b => b
  | .jnum n => n != 0
  | .jstr s => !s.data.isEmpty
  | .jarr xs => !xs.isEmpty
  | .jobj kvs => !kvs.isEmpty

/-- Python `len(x)`; raises `TypeError` on values without a length. -/
def pyLen : JVal → Except PyErr Nat
  | .jstr s => .ok s.data.length
  | .jarr xs => .ok xs.length
  | .jobj kvs => .ok kvs.length
  | _ => .error (.typeError "object has no len")

/-- Python iteration (`for s in searches`): lists yield their elements,
strings their one-character substrings, dicts their keys; other values
raise `TypeError`. -/
def pyIter : JVal → Except PyErr (List JVal)
  | .jarr xs => .ok xs
  | .jstr s => .ok (s.data.map fun c => .jstr ⟨[c]⟩)
  | .jobj kvs => .ok (kvs.map fun kv => .jstr kv.1)
  | _ => .error (.typeError "object is not iterable")

/-- `needle` is a prefix of `hay` (character lists). -/
def isPrefixChars : List Char → List Char → Bool
  | [], _ => true
  | _ :: _, [] => false
  | a :: as, b :: bs => a == b && isPrefixChars as bs

/-- `needle` occurs as a contiguous substring of `hay`. -/
def containsSub (needle : List Char) : List Char → Bool
  | [] => isPrefixChars needle []
  | hay@(_ :: rest) => isPrefixChars needle hay || containsSub needle rest

/-- Python `key in s` for a string literal `key` (the source's only
membership test is `"query" in s`): key membership for dicts, element
equality for lists, substring test for strings, `TypeError` otherwise. -/
def pyContainsStr (v : JVal) (key : String) : Except PyErr Bool :=
  match v with
  | .jobj kvs => .ok ((kvs.map Prod.fst).contains key)
  | .jarr xs => .ok (xs.any fun x => match x with
      | .jstr t => t == key
      | _ => false)
  | .jstr t => .ok (containsSub key.data t.data)
  | _ => .error (.typeError "argument is not a container")

/-- Python `s.upper()` as used on `r["type"]` in the report formatter;
raises `AttributeError` when the value is not a string. -/
def pyUpper : JVal → Except PyErr String
  | .jstr s => .ok ⟨s.data.map pyUpperChar⟩
  | _ => .error (.attributeError ("object has no attribute " ++ "upper"))

/-- Python `str(x)` as interpolated by the f-string `Query: {...}`.
Faithful on strings, numbers, booleans and `None`; the bracketed rendering
of lists/dicts is abbreviated (the data model gives requests string
queries, so the container branches are not exercised by any claim). -/
def pyToStr : JVal → String
  | .jstr s => s
  | .jnum n => toString n
  | .jbool true => "True"
  | .jbool false => "False"
  | .jnull => "None"
  | .jarr _ => "[...]"
  | .jobj _ => "\x7b...\x7d"

/-- Python `s.rfind(c)`: the greatest index at which `c` occurs, `-1` if it
does not occur. -/
def rfind (c : Char) : List Char → Int
  | [] => -1
  | a :: l =>
      if rfind c l ≥ 0 then rfind c l + 1
      else if a = c then 0 else -1

/-- `TRUNCATION_LIMITS`, the per-kind truncation budget table. -/
def TRUNCATION_LIMITS : List (String × Nat) :=
  [("web", 600), ("wikipedia", 800), ("news", 700), ("arxiv", 800), ("default", 500)]

/-- `TRUNCATION_LIMITS.get(search_type, TRUNCATION_LIMITS["default"])`. -/
def truncLimit (searchType : String) : Nat :=
  (TRUNCATION_LIMITS.lookup searchType).getD
    ((TRUNCATION_LIMITS.lookup "default").getD 0)

/-- The comparison `cut_point > limit * 0.7` from `truncate_result`,
evaluated as Python evaluates it: `0.7` is the IEEE-754 double
`6305039478318694 / 2^53`, and the product `limit * 0.7` is that product
rounded to the nearest double.  For the budgets occurring in
`TRUNCATION_LIMITS` the rounded products are exactly `350.0` (limit 500),
`420.0` (600), `560.0` (800) — the exact rationals `limit * 7 / 10` — and
`490 - 2^(-44)` (limit 700), slightly below `490`; Python then compares the
integer `cut_point` exactly against that double.  So the test is
`cut_point > 7 * limit / 10` except at limit 700, where it is
`cut_point ≥ 490`. -/
def pyGtLimitTimes07 (limit : Nat) (cutPoint : Int) : Bool :=
  if limit = 700 then cutPoint ≥ 490
  else cutPoint > ((limit * 7 / 10 : Nat) : Int)

/-- The marker appended by `truncate_result`. -/
def dots : List Char := "...".data

/-- Core of `truncate_result` on the character list of the input, given
the resolved budget `limit`. -/
def truncCore (l : List Char) (limit : Nat) : List Char :=
  if l.length ≤ limit then l
  else
    let truncated := l.take limit
    let lastPeriod := rfind '.' truncated
    let lastNewline := rfind '\n' truncated
    let cutPoint := max lastPeriod lastNewline
    if pyGtLimitTimes07 limit cutPoint then l.take (cutPoint.toNat + 1) ++ dots
    else l.take limit ++ dots

/-- `truncate_result(result, search_type)`. -/
def truncateResult (result : String) (searchType : String) : String :=
  ⟨truncCore result.data (truncLimit searchType)⟩

/-- The budget lookup `TRUNCATION_LIMITS.get(r["type"], ...)` when the key
is a JSON value: a string key consults the table, any other (hashable)
value misses it and yields the default 500.  (In every trace the formatter
has already called `.upper()` on the same value, so a non-string key is
unreachable here.) -/
def truncLimitJ : JVal → Nat
  | .jstr s => truncLimit s
  | _ => (TRUNCATION_LIMITS.lookup "default").getD 0

/-- The registry dictionary `search_functions` built inside
`get_search_function`. -/
def searchFunctions (env : Env) : List (String × (JVal → Except String String)) :=
  [("web", env.web), ("wikipedia", env.wikipedia),
   ("news", env.news), ("arxiv", env.arxiv)]

/-- `get_search_function(search_type)`:
`search_functions.get(search_type.lower())`. -/
def getSearchFunction (env : Env) (searchType : String) :
    Option (JVal → Except String String) :=
  (searchFunctions env).lookup (pyLower searchType)

/-- The failure payload for an unregistered kind (line 99 of the source):
it names the unknown kind and lists the valid kinds. -/
def unknownTypeMsg (ty : String) : String :=
  "Unknown search type: " ++ ty ++
    ". Use \x27web\x27, \x27wikipedia\x27, \x27news\x27, or \x27arxiv\x27."

/-- The result dictionary built by `execute_single_search` (and by the
dispatcher's exception handler): keys `type`, `query`, `result`,
`success`.  `type` is a `JVal` because the handler path echoes
`search.get("type", "unknown")` verbatim; in every result produced by
`execute_single_search` itself it is a string. -/
structure ResultD where
  type : JVal
  query : JVal
  result : String
  success : Bool
deriving Repr

/-- `execute_single_search(search_spec)`.  `.error` models the uncaught
exceptions the function itself can raise (`.get` on a non-dict spec,
`.lower()` inside `get_search_function` on a non-string type value); the
`try` block around `search_func(query)` converts a raising tool into a
failed result, so a tool exception never escapes. -/
def executeSingleSearch (env : Env) (searchSpec : JVal) : Except PyErr ResultD := do
  let searchType ← pyGet searchSpec "type" (.jstr "web")
  let query ← pyGet searchSpec "query" (.jstr "")
  match searchType with
  | .jstr ty =>
      match getSearchFunction env ty with
      | none =>
          .ok ⟨.jstr ty, query, unknownTypeMsg ty, false⟩
      | some searchFunc =>
          match searchFunc query with
          | .ok result => .ok ⟨.jstr ty, query, result, true⟩
          | .error e => .ok ⟨.jstr ty, query, "Error: " ++ e, false⟩
  | _ => .error (.attributeError ("object has no attribute " ++ "lower"))

/-- One iteration of the result-collection loop (`future.result()` plus
the `except` handler at lines 178–185): a worker that raised is converted
to a failed result whose `type`/`query` echo the original spec — the
handler's own `.get` calls can themselves raise when the spec is not a
dict. -/
def collectResult (env : Env) (search : JVal) : Except PyErr ResultD :=
  match executeSingleSearch env search with
  | .ok r => .ok r
  | .error e => do
      let ty ← pyGet search "type" (.jstr "unknown")
      let q ← pyGet search "query" (.jstr "")
      .ok ⟨ty, q,
           "Execution error: " ++
             (match e with
              | .attributeError m => m
              | .typeError m => m),
           false⟩

/-- The fan-out/collect phase of `parallel_search` (lines 164–185): every
submitted request yields exactly one collected result.  Completion order
is modelled as submission order (see the header comment). -/
def runSearches (env : Env) : List JVal → Except PyErr (List ResultD)
  | [] => .ok []
  | s :: rest => do
      let r ← collectResult env s
      let rs ← runSearches env rest
      .ok (r :: rs)

/-- The batch-level error for an absent or empty (falsy) `searches` value
(line 153). -/
def noSearchesMsg : String :=
  "Error: No searches provided. Include a \x27searches\x27 array."

/-- The batch-level error for more than 10 requests (line 156). -/
def maxSearchesMsg : String := "Error: Maximum 10 parallel searches allowed."

/-- The batch-level error for the first entry without a `"query"` key
(line 161); `i` is the 0-based position. -/
def missingQueryMsg (i : Nat) : String :=
  "Error: Search " ++ toString (i + 1) ++ " is missing \x27query\x27 field."

/-- The validation loop (lines 158–161): the 1-based index and error
message of the first entry without a `"query"` key, if any. -/
def validateSearches (i : Nat) : List JVal → Except PyErr (Option String)
  | [] => .ok none
  | s :: rest => do
      let mem ← pyContainsStr s "query"
      if mem then validateSearches (i + 1) rest
      else .ok (some (missingQueryMsg i))

/-- One block of the report (lines 195–206): status tag, upper-cased kind,
echoed query, and the truncated payload. -/
def formatEntry (r : ResultD) : Except PyErr String := do
  let status := if r.success then "SUCCESS" else "FAILED"
  let searchType ← pyUpper r.type
  let truncated := truncCore r.result.data (truncLimitJ r.type)
  .ok ("--- [" ++ searchType ++ "] " ++ status ++ " ---\n" ++
       "Query: " ++ pyToStr r.query ++ "\n" ++
       String.mk truncated ++ "\n")

/-- The report blocks for all results, in order. -/
def formatBlocks : List ResultD → Except PyErr (List String)
  | [] => .ok []
  | r :: rest => do
      let b ← formatEntry r
      let bs ← formatBlocks rest
      .ok (b :: bs)

/-- The summary line (line 192). -/
def summaryLine (rs : List ResultD) : String :=
  "Parallel search completed: " ++ toString (rs.countP (·.success)) ++ "/" ++
    toString rs.length ++ " successful\n"

/-- Lines 187–208: the summary line followed by one block per result,
joined with `"\n"`. -/
def formatResults (rs : List ResultD) : Except PyErr String := do
  let blocks ← formatBlocks rs
  .ok (String.intercalate "\n" (summaryLine rs :: blocks))

/-- The invalid-JSON message (lines 144–148). -/
def invalidJsonMsg (e : String) : String :=
  "Error: Invalid JSON. " ++ e ++ "\n\nExpected format:\n" ++
    "\x7b\"searches\": [\x7b\"type\": \"web\", \"query\": \"...\"\x7d, ...]\x7d"

/-- `parallel_search(input_str)`.  The argument is the outcome of
`json.loads(input_str)`: `.error e` is a `json.JSONDecodeError` with
message `e`, `.ok spec` the parsed value.  The result is the returned
report string, or `.error` for an exception that escapes the function. -/
def parallelSearch (env : Env) (input : Except String JVal) : Except PyErr String :=
  match input with
  | .error e => .ok (invalidJsonMsg e)
  | .ok spec => do
      let searches ← pyGet spec "searches" (.jarr [])
      if pyTruthy searches = false then
        return noSearchesMsg
      else
        let n ← pyLen searches
        if n > 10 then
          return maxSearchesMsg
        else do
          let items ← pyIter searches
          match ← validateSearches 0 items with
          | some msg => return msg
          | none => do
              let rs ← runSearches env items
              formatResults rs

/-! ## Specification-side definitions

`truncateResult` above is the translation of the source.  The following
definitions restate the truncation behaviour in the words of the
specification and of claim C9, to be compared with the source function. -/

/-- A sentence-terminator or line boundary, in the spec's sense. -/
def isBoundaryChar (c : Char) : Bool := c == '.' || c == '\n'

/-- The index of the last boundary character of `l`, or `-1` if there is
none — the spec's "last sentence-terminator or newline boundary". -/
def lastBoundary : List Char → Int
  | [] => -1
  | a :: l =>
      if lastBoundary l ≥ 0 then lastBoundary l + 1
      else if isBoundaryChar a then 0 else -1

/-- Claim C9's described behaviour, word for word: for strings longer
than the budget `L`, cut at the last `'.'`/newline boundary of the first
`L` characters whenever that boundary lies **at or after 70% of L**
(exact arithmetic: `10 * cp ≥ 7 * L`), otherwise hard-cut at `L`; append
the marker; strings of length at most `L` are returned unchanged. -/
def truncSpecC9Core (l : List Char) (L : Nat) : List Char :=
  if l.length ≤ L then l
  else
    let cp := lastBoundary (l.take L)
    if 10 * cp ≥ 7 * (L : Int) then l.take (cp.toNat + 1) ++ dots
    else l.take L ++ dots

/-- See `truncSpecC9Core`.  (A string is its character list, so the
unchanged branch returns the input string itself.) -/
def truncateSpecC9 (s : String) (searchType : String) : String :=
  ⟨truncSpecC9Core s.data (truncLimit searchType)⟩

/-- The amended form of claim C9: identical to `truncateSpecC9` except
that the boundary is used only when it lies **strictly after** `0.7 * L`
as Python's float arithmetic evaluates that product (`pyGtLimitTimes07`);
for the budget 700 the float product falls just below 490, so there the
effective test is at-or-after 70%. -/
def truncSpecAmendedCore (l : List Char) (L : Nat) : List Char :=
  if l.length ≤ L then l
  else
    let cp := lastBoundary (l.take L)
    if pyGtLimitTimes07 L cp then l.take (cp.toNat + 1) ++ dots
    else l.take L ++ dots

/-- See `truncSpecAmendedCore`. -/
def truncateSpecAmended (s : String) (searchType : String) : String :=
  ⟨truncSpecAmendedCore s.data (truncLimit searchType)⟩

/-! ## Well-formed requests

The spec's data model (§3) gives a `ToolInvocationRequest` a string `kind`
and a string `query`; in the JSON transport both are optional keys of an
object entry. -/

/-- The entry is a JSON object whose `"type"` key, when present, holds a
string, and whose `"query"` key, when present, holds a string. -/
def wfEntry : JVal → Bool
  | .jobj kvs =>
      (match kvs.lookup "type" with
       | none => true
       | some (.jstr _) => true
       | some _ => false) &&
      (match kvs.lookup "query" with
       | none => true
       | some (.jstr _) => true
       | some _ => false)
  | _ => false

/-- The entry is a JSON object that has a `"query"` key. -/
def hasQueryKey : JVal → Bool
  | .jobj kvs => (kvs.map Prod.fst).contains "query"
  | _ => false

/-- A valid batch entry in the sense of claim C1: well formed and actually
carrying a `"query"` key. -/
def validEntry (v : JVal) : Bool :=
  wfEntry v && hasQueryKey v

/-- A fixed concrete environment for witnesses and counterexamples: every
tool returns the string `"ok"` except the news tool, which raises an
exception with message `"boom"`. -/
def env0 : Env :=
  ⟨fun _ => .ok "ok", fun _ => .ok "ok",
   fun _ => .error "boom", fun _ => .ok "ok"⟩

/-! ## Helper lemmas -/

theorem rfind_lt_length (c : Char) (l : List Char) : rfind c l < (l.length : Int) := by
  induction l with
  | nil => simp [rfind]
  | cons a l ih =>
      simp only [rfind, List.length_cons]
      split
      · push_cast; omega
      · split <;> push_cast <;> omega

theorem neg_one_le_rfind (c : Char) (l : List Char) : -1 ≤ rfind c l := by
  induction l with
  | nil => simp [rfind]
  | cons a l ih =>
      simp only [rfind]
      split
      · omega
      · split <;> omega

theorem rfind_append_of_nonneg {c : Char} {m : List Char} (l : List Char)
    (h : 0 ≤ rfind c m) : rfind c (l ++ m) = (l.length : Int) + rfind c m := by
  induction l with
  | nil => simp
  | cons a l ih =>
      rw [List.cons_append]
      simp only [rfind, ih, List.length_cons]
      rw [if_pos (by positivity : (0 : Int) ≤ (l.length : Int) + rfind c m)]
      push_cast
      omega

theorem rfind_append_of_neg {c : Char} {m : List Char} (l : List Char)
    (h : rfind c m < 0) : rfind c (l ++ m) = rfind c l := by
  induction l with
  | nil =>
      have h1 := neg_one_le_rfind c m
      simp only [List.nil_append, rfind]
      omega
  | cons a l ih =>
      rw [List.cons_append]
      simp only [rfind, ih]

theorem rfind_replicate_of_ne {c a : Char} (h : a ≠ c) (n : Nat) :
    rfind c (List.replicate n a) = -1 := by
  induction n with
  | zero => rfl
  | succ n ih =>
      rw [List.replicate_succ]
      simp only [rfind, ih]
      simp [h]

theorem lastBoundary_eq_max (l : List Char) :
    lastBoundary l = max (rfind '.' l) (rfind '\n' l) := by
  induction l with
  | nil => rfl
  | cons a l ih =>
      have h1 := neg_one_le_rfind '.' l
      have h2 := neg_one_le_rfind '\n' l
      simp only [lastBoundary, rfind, ih]
      by_cases hp : a = '.'
      · subst hp
        rw [if_pos rfl, if_neg (by decide : ¬('.' : Char) = '\n'),
            if_pos (by decide : isBoundaryChar '.' = true)]
        rcases le_or_lt 0 (rfind '.' l) with hr1 | hr1 <;>
          rcases le_or_lt 0 (rfind '\n' l) with hr2 | hr2 <;>
          · first
            | rw [if_pos hr1] | rw [if_neg (by omega : ¬rfind '.' l ≥ 0)]
            first
            | rw [if_pos hr2] | rw [if_neg (by omega : ¬rfind '\n' l ≥ 0)]
            split <;> omega
      · by_cases hn : a = '\n'
        · subst hn
          rw [if_neg (by decide : ¬('\n' : Char) = '.'), if_pos rfl,
              if_pos (by decide : isBoundaryChar '\n' = true)]
          rcases le_or_lt 0 (rfind '.' l) with hr1 | hr1 <;>
            rcases le_or_lt 0 (rfind '\n' l) with hr2 | hr2 <;>
            · first
              | rw [if_pos hr1] | rw [if_neg (by omega : ¬rfind '.' l ≥ 0)]
              first
              | rw [if_pos hr2] | rw [if_neg (by omega : ¬rfind '\n' l ≥ 0)]
              split <;> omega
        · have hbf : isBoundaryChar a = false := by
            simp [isBoundaryChar, hp, hn]
          rw [if_neg hp, if_neg hn, hbf]
          rcases le_or_lt 0 (rfind '.' l) with hr1 | hr1 <;>
            rcases le_or_lt 0 (rfind '\n' l) with hr2 | hr2 <;>
            · first
              | rw [if_pos hr1] | rw [if_neg (by omega : ¬rfind '.' l ≥ 0)]
              first
              | rw [if_pos hr2] | rw [if_neg (by omega : ¬rfind '\n' l ≥ 0)]
              rw [if_neg (show ¬(false = true) by decide)]
              split <;> omega

/-- The cut point computed at lines 65–70 of the source: the later of the
last period and the last newline within the first `limit` characters. -/
def cutPoint (l : List Char) (limit : Nat) : Int :=
  max (rfind '.' (l.take limit)) (rfind '\n' (l.take limit))

theorem pyGt_nonneg {limit : Nat} {cp : Int}
    (h : pyGtLimitTimes07 limit cp = true) : 0 ≤ cp := by
  unfold pyGtLimitTimes07 at h
  split at h
  · simp only [decide_eq_true_eq] at h
    omega
  · simp only [decide_eq_true_eq] at h
    have : (0 : Int) ≤ ((limit * 7 / 10 : Nat) : Int) := Int.natCast_nonneg _
    omega

theorem cutPoint_lt (l : List Char) (limit : Nat) :
    cutPoint l limit < ((min limit l.length : Nat) : Int) := by
  have h1 := rfind_lt_length '.' (l.take limit)
  have h2 := rfind_lt_length '\n' (l.take limit)
  rw [List.length_take] at h1 h2
  unfold cutPoint
  omega

theorem truncCore_of_length_le {l : List Char} {limit : Nat}
    (h : l.length ≤ limit) : truncCore l limit = l := by
  unfold truncCore
  rw [if_pos h]

theorem truncCore_boundary {l : List Char} {limit : Nat}
    (hlen : limit < l.length) (hcut : pyGtLimitTimes07 limit (cutPoint l limit) = true) :
    truncCore l limit = l.take ((cutPoint l limit).toNat + 1) ++ dots := by
  have hlen' : ¬l.length ≤ limit := by omega
  have hc : Max.max (rfind '.' (l.take limit)) (rfind '\n' (l.take limit)) =
      cutPoint l limit := rfl
  simp only [truncCore, if_neg hlen', hc, hcut, if_true, reduceIte]

theorem truncCore_hard {l : List Char} {limit : Nat}
    (hlen : limit < l.length) (hcut : pyGtLimitTimes07 limit (cutPoint l limit) = false) :
    truncCore l limit = l.take limit ++ dots := by
  have hlen' : ¬l.length ≤ limit := by omega
  have hc : Max.max (rfind '.' (l.take limit)) (rfind '\n' (l.take limit)) =
      cutPoint l limit := rfl
  simp only [truncCore, if_neg hlen', hc, hcut]
  rw [if_neg (show ¬(false = true) by decide)]

theorem length_truncCore_le (l : List Char) (limit : Nat) :
    (truncCore l limit).length ≤ limit + 3 := by
  rcases le_or_lt l.length limit with hlen | hlen
  · rw [truncCore_of_length_le hlen]
    omega
  · have hb := cutPoint_lt l limit
    rw [Nat.min_eq_left (by omega)] at hb
    cases hcut : pyGtLimitTimes07 limit (cutPoint l limit) with
    | true =>
        have h0 := pyGt_nonneg hcut
        rw [truncCore_boundary hlen hcut]
        rw [List.length_append, List.length_take]
        have hd : dots.length = 3 := rfl
        omega
    | false =>
        rw [truncCore_hard hlen hcut]
        rw [List.length_append, List.length_take]
        have hd : dots.length = 3 := rfl
        omega

theorem take_truncCut_append_dots {l : List Char} {limit : Nat}
    (hlen : limit < l.length) :
    (l.take limit ++ dots).take limit = l.take limit := by
  have h1 : (l.take limit).length = limit := by
    rw [List.length_take]
    omega
  rw [List.take_append_eq_append_take, h1, Nat.sub_self, List.take_zero,
      List.append_nil, List.take_take, Nat.min_self]

/-- Applying `truncate_result`'s core twice with the same budget is the
same as applying it once, provided the first application did not cut at a
boundary sitting at position `limit - 2` or `limit - 3` (in those two
cases the appended `"..."` pushes fresh periods into the first `limit`
characters and the second application cuts again, longer). -/
theorem truncCore_idem {l : List Char} {limit : Nat}
    (h : l.length ≤ limit ∨
         pyGtLimitTimes07 limit (cutPoint l limit) = false ∨
         cutPoint l limit + 4 ≤ (limit : Int) ∨
         cutPoint l limit = (limit : Int) - 1) :
    truncCore (truncCore l limit) limit = truncCore l limit := by
  rcases le_or_lt l.length limit with hlen | hlen
  · rw [truncCore_of_length_le hlen, truncCore_of_length_le hlen]
  · have h1 : (l.take limit).length = limit := by
      rw [List.length_take]
      omega
    have htake := take_truncCut_append_dots hlen
    have hcp : cutPoint (l.take limit ++ dots) limit = cutPoint l limit := by
      unfold cutPoint
      rw [htake]
    have hout : (l.take limit ++ dots).length = limit + 3 := by
      rw [List.length_append, h1]
      rfl
    have hcpb := cutPoint_lt l limit
    rw [Nat.min_eq_left (by omega)] at hcpb
    cases hcut : pyGtLimitTimes07 limit (cutPoint l limit) with
    | false =>
        rw [truncCore_hard hlen hcut]
        rw [truncCore_hard (by omega) (by rw [hcp]; exact hcut), htake]
    | true =>
        have h0 := pyGt_nonneg hcut
        rcases h with h | h | h | h
        · omega
        · rw [h] at hcut
          cases hcut
        · -- the cut leaves room for the marker: the output is short enough
          rw [truncCore_boundary hlen hcut]
          have hsh : (l.take ((cutPoint l limit).toNat + 1) ++ dots).length ≤ limit := by
            rw [List.length_append, List.length_take, Nat.min_eq_left (by omega)]
            have hd : dots.length = 3 := rfl
            omega
          rw [truncCore_of_length_le hsh]
        · -- the cut is at the very last budget position: the second pass
          -- recuts at the same place
          have hL : (cutPoint l limit).toNat + 1 = limit := by omega
          rw [truncCore_boundary hlen hcut, hL]
          rw [truncCore_boundary (l := l.take limit ++ dots) (by omega)
                (by rw [hcp]; exact hcut)]
          rw [hcp, hL, htake]

/-! ## Concrete truncation counterexamples

Both use an unregistered kind (budget 500 via the `"default"` entry).
The strings are long (over 500 characters), so the computations are done
with the `rfind`/`take` lemmas above rather than by kernel evaluation. -/

theorem dots_length : dots.length = 3 := rfl

/-- 498 `'a'`s, then `".bc"`: length 501, last period at index 498. -/
def s4 : String := ⟨List.replicate 498 'a' ++ ['.', 'b', 'c']⟩

theorem len_s4 : s4.data.length = 501 := by
  show (List.replicate 498 'a' ++ ['.', 'b', 'c']).length = 501
  rw [List.length_append, List.length_replicate]
  decide

theorem take500_s4 : s4.data.take 500 = List.replicate 498 'a' ++ ['.', 'b'] := by
  show (List.replicate 498 'a' ++ ['.', 'b', 'c']).take 500 = _
  rw [List.take_append_eq_append_take,
      List.take_of_length_le (by rw [List.length_replicate]; omega),
      List.length_replicate]
  congr 1

theorem cutPoint_s4 : cutPoint s4.data 500 = 498 := by
  unfold cutPoint
  rw [take500_s4]
  rw [rfind_append_of_nonneg _ (by decide : (0 : Int) ≤ rfind '.' ['.', 'b']),
      rfind_append_of_neg _ (by decide : rfind '\n' ['.', 'b'] < 0),
      rfind_replicate_of_ne (by decide : 'a' ≠ '\n'), List.length_replicate]
  decide

theorem truncateResult_s4 :
    truncateResult s4 "x" = ⟨(List.replicate 498 'a' ++ ['.']) ++ dots⟩ := by
  show String.mk (truncCore s4.data (truncLimit "x")) = _
  have hL : truncLimit "x" = 500 := rfl
  rw [hL, truncCore_boundary (by rw [len_s4]; omega)
        (by rw [cutPoint_s4]; decide), cutPoint_s4]
  have h499 : ((498 : Int).toNat + 1) = 499 := rfl
  rw [h499]
  refine congrArg String.mk ?_
  show (List.replicate 498 'a' ++ ['.', 'b', 'c']).take 499 ++ dots = _
  rw [List.take_append_eq_append_take,
      List.take_of_length_le (by rw [List.length_replicate]; omega),
      List.length_replicate]
  congr 2

theorem truncateResult_s4_again :
    truncateResult ⟨(List.replicate 498 'a' ++ ['.']) ++ dots⟩ "x" =
      ⟨((List.replicate 498 'a' ++ ['.']) ++ ['.']) ++ dots⟩ := by
  have hlen : ((List.replicate 498 'a' ++ ['.']) ++ dots).length = 502 := by
    rw [List.length_append, List.length_append, List.length_replicate, dots_length]
    decide
  have htake : ((List.replicate 498 'a' ++ ['.']) ++ dots).take 500 =
      (List.replicate 498 'a' ++ ['.']) ++ ['.'] := by
    rw [List.take_append_eq_append_take,
        List.take_of_length_le
          (by rw [List.length_append, List.length_replicate, List.length_singleton]; omega),
        List.length_append, List.length_replicate, List.length_singleton]
    congr 1
  have hcp : cutPoint ((List.replicate 498 'a' ++ ['.']) ++ dots) 500 = 499 := by
    unfold cutPoint
    rw [htake]
    rw [rfind_append_of_nonneg _ (by decide : (0 : Int) ≤ rfind '.' ['.']),
        rfind_append_of_neg _ (by decide : rfind '\n' ['.'] < 0),
        rfind_append_of_neg _ (by decide : rfind '\n' ['.'] < 0),
        rfind_replicate_of_ne (by decide : 'a' ≠ '\n')]
    rw [List.length_append, List.length_replicate]
    decide
  show String.mk (truncCore _ (truncLimit "x")) = _
  have hL : truncLimit "x" = 500 := rfl
  rw [hL, truncCore_boundary (by rw [hlen]; omega) (by rw [hcp]; decide), hcp]
  have h500 : ((499 : Int).toNat + 1) = 500 := rfl
  rw [h500, htake]

/-- The source's truncation equals the amended specification-side
description: the only difference between the two texts is that the source
computes the boundary as `max(rfind('.'), rfind('\n'))` while the spec
speaks of the last boundary character, and these coincide. -/
theorem truncCore_eq_amendedCore (l : List Char) (L : Nat) :
    truncCore l L = truncSpecAmendedCore l L := by
  unfold truncCore truncSpecAmendedCore
  rw [lastBoundary_eq_max]

/-- 350 `'a'`s, a period, then 150 `'b'`s: length 501, last boundary at
index 350 — exactly 70% of the default budget 500. -/
def s9 : String := ⟨List.replicate 350 'a' ++ '.' :: List.replicate 150 'b'⟩

theorem len_s9 : s9.data.length = 501 := by
  show (List.replicate 350 'a' ++ '.' :: List.replicate 150 'b').length = 501
  rw [List.length_append, List.length_replicate, List.length_cons,
      List.length_replicate]

theorem take500_s9 : s9.data.take 500 =
    List.replicate 350 'a' ++ '.' :: List.replicate 149 'b' := by
  show (List.replicate 350 'a' ++ '.' :: List.replicate 150 'b').take 500 = _
  rw [List.take_append_eq_append_take,
      List.take_of_length_le (by rw [List.length_replicate]; omega),
      List.length_replicate]
  congr 1

theorem rfind_cons_self {c : Char} {l : List Char} (h : rfind c l < 0) :
    rfind c (c :: l) = 0 := by
  unfold rfind
  rw [if_neg (by omega), if_pos rfl]

theorem rfind_cons_of_ne {a c : Char} {l : List Char} (h : rfind c l < 0)
    (hne : a ≠ c) : rfind c (a :: l) = -1 := by
  unfold rfind
  rw [if_neg (by omega), if_neg hne]

theorem rfind_dot_take500_s9 : rfind '.' (s9.data.take 500) = 350 := by
  rw [take500_s9]
  have hb : rfind '.' ('.' :: List.replicate 149 'b') = 0 :=
    rfind_cons_self (by rw [rfind_replicate_of_ne (by decide : 'b' ≠ '.')]; omega)
  rw [rfind_append_of_nonneg _ (by rw [hb]), hb, List.length_replicate]
  rfl

theorem rfind_nl_take500_s9 : rfind '\n' (s9.data.take 500) = -1 := by
  rw [take500_s9]
  have hb : rfind '\n' ('.' :: List.replicate 149 'b') = -1 :=
    rfind_cons_of_ne (by rw [rfind_replicate_of_ne (by decide : 'b' ≠ '\n')]; omega)
      (by decide)
  rw [rfind_append_of_neg _ (by rw [hb]; omega),
      rfind_replicate_of_ne (by decide : 'a' ≠ '\n')]

theorem cutPoint_s9 : cutPoint s9.data 500 = 350 := by
  unfold cutPoint
  rw [rfind_dot_take500_s9, rfind_nl_take500_s9]
  rfl

/-- On `s9` the source hard-cuts: the boundary at index 350 fails the
strict float comparison `350 > 350.0`. -/
theorem truncateResult_s9 :
    truncateResult s9 "zzz" = ⟨s9.data.take 500 ++ dots⟩ := by
  show String.mk (truncCore s9.data (truncLimit "zzz")) = _
  have hL : truncLimit "zzz" = 500 := rfl
  rw [hL, truncCore_hard (by rw [len_s9]; omega) (by rw [cutPoint_s9]; decide)]

/-- On `s9` claim C9's description cuts at the boundary ("at or after 70%
of L"), yielding a different, much shorter string. -/
theorem truncateSpecC9_s9 :
    truncateSpecC9 s9 "zzz" = ⟨s9.data.take 351 ++ dots⟩ := by
  show String.mk (truncSpecC9Core s9.data (truncLimit "zzz")) = _
  have hL : truncLimit "zzz" = 500 := rfl
  have hlb : lastBoundary (s9.data.take 500) = 350 := by
    rw [lastBoundary_eq_max, rfind_dot_take500_s9, rfind_nl_take500_s9]
    rfl
  rw [hL]
  unfold truncSpecC9Core
  rw [if_neg (by rw [len_s9]; omega)]
  simp only [hlb]
  rw [if_pos (by decide)]
  have h351 : ((350 : Int).toNat + 1) = 351 := rfl
  rw [h351]

/-! ## Dispatcher lemmas -/

theorem executeSingleSearch_obj (env : Env) (kvs : List (String × JVal)) (ty : String)
    (hty : (kvs.lookup "type").getD (.jstr "web") = .jstr ty) :
    executeSingleSearch env (.jobj kvs) =
      (match getSearchFunction env ty with
       | none => .ok ⟨.jstr ty, (kvs.lookup "query").getD (.jstr ""), unknownTypeMsg ty, false⟩
       | some f =>
           match f ((kvs.lookup "query").getD (.jstr "")) with
           | .ok r => .ok ⟨.jstr ty, (kvs.lookup "query").getD (.jstr ""), r, true⟩
           | .error e =>
               .ok ⟨.jstr ty, (kvs.lookup "query").getD (.jstr ""), "Error: " ++ e, false⟩) := by
  unfold executeSingleSearch pyGet
  simp only [bind, Except.bind, hty]

theorem executeSingleSearch_wf (env : Env) {v : JVal} (h : wfEntry v = true) :
    ∃ (ty : String) (q : JVal) (res : String) (b : Bool),
      executeSingleSearch env v = .ok ⟨.jstr ty, q, res, b⟩ := by
  match v, h with
  | .jobj kvs, h =>
      unfold wfEntry at h
      rw [Bool.and_eq_true] at h
      have hty : ∃ ty : String, (kvs.lookup "type").getD (.jstr "web") = .jstr ty := by
        rcases h with ⟨h1, _⟩
        match hl : kvs.lookup "type" with
        | none => exact ⟨"web", rfl⟩
        | some (.jstr t) => exact ⟨t, rfl⟩
        | some .jnull | some (.jbool _) | some (.jnum _) | some (.jarr _)
        | some (.jobj _) =>
            rw [hl] at h1
            cases h1
      obtain ⟨ty, hty⟩ := hty
      rw [executeSingleSearch_obj env kvs ty hty]
      rcases hgs : getSearchFunction env ty with _ | f
      all_goals simp only [hgs]
      · exact ⟨ty, _, _, _, rfl⟩
      · rcases hf : f ((kvs.lookup "query").getD (.jstr "")) with e | r <;>
          simp only [hf]
        · exact ⟨ty, _, _, _, rfl⟩
        · exact ⟨ty, _, _, _, rfl⟩

theorem collectResult_of_ok {env : Env} {s : JVal} {r : ResultD}
    (h : executeSingleSearch env s = .ok r) : collectResult env s = .ok r := by
  unfold collectResult
  rw [h]

/-- On a list of well-formed entries the fan-out phase succeeds and
produces exactly one result per submitted request, each result being the
one `execute_single_search` returns for its request, with a string
`type` field. -/
theorem runSearches_ok_of_wf (env : Env) {l : List JVal}
    (h : ∀ v ∈ l, wfEntry v = true) :
    ∃ rs : List ResultD, runSearches env l = .ok rs ∧
      List.Forall₂ (fun s r => executeSingleSearch env s = .ok r) l rs ∧
      (∀ r ∈ rs, ∃ ty : String, r.type = .jstr ty) := by
  induction l with
  | nil => exact ⟨[], rfl, .nil, by intro r hr; cases hr⟩
  | cons s rest ih =>
      have hs := h s (List.mem_cons_self s rest)
      obtain ⟨ty, q, res, b, hr⟩ := executeSingleSearch_wf env hs
      obtain ⟨rs, hrs, hf, htys⟩ := ih fun v hv => h v (List.mem_cons_of_mem _ hv)
      refine ⟨⟨.jstr ty, q, res, b⟩ :: rs, ?_, .cons hr hf, ?_⟩
      · unfold runSearches
        rw [collectResult_of_ok hr]
        simp only [bind, Except.bind, hrs]
      · intro r hmem
        rcases List.mem_cons.mp hmem with heq | hmem2
        · exact ⟨ty, by rw [heq]⟩
        · exact htys r hmem2

theorem formatEntry_ok_of_jstr {r : ResultD} {ty : String} (h : r.type = .jstr ty) :
    formatEntry r =
      .ok ("--- [" ++ String.mk (ty.data.map pyUpperChar) ++ "] " ++
           (if r.success then "SUCCESS" else "FAILED") ++ " ---\n" ++
           "Query: " ++ pyToStr r.query ++ "\n" ++
           String.mk (truncCore r.result.data (truncLimitJ r.type)) ++ "\n") := by
  unfold formatEntry pyUpper
  rw [h]
  simp only [bind, Except.bind]

theorem formatBlocks_ok_of_types {rs : List ResultD}
    (h : ∀ r ∈ rs, ∃ ty : String, r.type = .jstr ty) :
    ∃ blocks : List String, formatBlocks rs = .ok blocks ∧
      blocks.length = rs.length := by
  induction rs with
  | nil => exact ⟨[], rfl, rfl⟩
  | cons r rest ih =>
      obtain ⟨ty, hty⟩ := h r (List.mem_cons_self r rest)
      obtain ⟨blocks, hb, hlen⟩ := ih fun x hx => h x (List.mem_cons_of_mem _ hx)
      refine ⟨("--- [" ++ String.mk (ty.data.map pyUpperChar) ++ "] " ++
               (if r.success then "SUCCESS" else "FAILED") ++ " ---\n" ++
               "Query: " ++ pyToStr r.query ++ "\n" ++
               String.mk (truncCore r.result.data (truncLimitJ r.type)) ++ "\n") ::
              blocks, ?_,
             by rw [List.length_cons, hlen, List.length_cons]⟩
      unfold formatBlocks
      rw [formatEntry_ok_of_jstr hty]
      simp only [bind, Except.bind, hb]

theorem pyContainsStr_of_hasQuery {v : JVal} (h : hasQueryKey v = true) :
    pyContainsStr v "query" = .ok true := by
  match v, h with
  | .jobj kvs, h => exact congrArg Except.ok h

theorem validateSearches_ok_of_hasQuery {l : List JVal}
    (h : ∀ v ∈ l, hasQueryKey v = true) (i : Nat) :
    validateSearches i l = .ok none := by
  induction l generalizing i with
  | nil => rfl
  | cons s rest ih =>
      unfold validateSearches
      rw [pyContainsStr_of_hasQuery (h s (List.mem_cons_self s rest))]
      simp only [bind, Except.bind, if_true]
      exact ih (fun v hv => h v (List.mem_cons_of_mem _ hv)) (i + 1)

/-- The happy path of `parallel_search` on a valid batch: parsing, guards
and validation all pass, every request is executed, and the report is the
summary line followed by one block per result. -/
theorem parallelSearch_valid (env : Env) (kvs : List (String × JVal))
    (entries : List JVal)
    (hs : kvs.lookup "searches" = some (.jarr entries))
    (hne : entries ≠ []) (h10 : entries.length ≤ 10)
    (hwf : ∀ v ∈ entries, validEntry v = true) :
    ∃ (rs : List ResultD) (blocks : List String),
      runSearches env entries = .ok rs ∧
      List.Forall₂ (fun s r => executeSingleSearch env s = .ok r) entries rs ∧
      blocks.length = rs.length ∧
      parallelSearch env (.ok (.jobj kvs)) =
        .ok (String.intercalate "\n" (summaryLine rs :: blocks)) := by
  have hwf' : ∀ v ∈ entries, wfEntry v = true := by
    intro v hv
    have h2 := hwf v hv
    unfold validEntry at h2
    rw [Bool.and_eq_true] at h2
    exact h2.1
  have hq : ∀ v ∈ entries, hasQueryKey v = true := by
    intro v hv
    have h2 := hwf v hv
    unfold validEntry at h2
    rw [Bool.and_eq_true] at h2
    exact h2.2
  obtain ⟨rs, hrs, hfa, htys⟩ := runSearches_ok_of_wf env hwf'
  obtain ⟨blocks, hblocks, hbl⟩ := formatBlocks_ok_of_types htys
  refine ⟨rs, blocks, hrs, hfa, hbl, ?_⟩
  have htr : pyTruthy (.jarr entries) = true := by
    match entries, hne with
    | v :: rest, _ => rfl
  unfold parallelSearch
  simp only [pyGet, hs, Option.getD, bind, Except.bind, htr]
  rw [if_neg (by simp [htr])]
  simp only [pyLen, bind, Except.bind]
  rw [if_neg (by omega)]
  simp only [pyIter, bind, Except.bind,
             validateSearches_ok_of_hasQuery hq 0, hrs]
  unfold formatResults
  simp only [bind, Except.bind, hblocks]

theorem toNat_ofNat_of_valid {n : Nat} (h : n.isValidChar) :
    (Char.ofNat n).toNat = n := by
  unfold Char.ofNat
  rw [dif_pos h]
  rfl

theorem pyLowerChar_idem (c : Char) : pyLowerChar (pyLowerChar c) = pyLowerChar c := by
  unfold pyLowerChar
  split
  · rename_i h
    have hv : (c.toNat + 32).isValidChar := by
      rcases h with ⟨_, h2⟩
      exact Or.inl (by omega)
    rw [if_neg]
    rw [toNat_ofNat_of_valid hv]
    rcases h with ⟨h1, h2⟩
    omega
  · rfl

theorem pyLower_idem (s : String) : pyLower (pyLower s) = pyLower s := by
  unfold pyLower
  refine congrArg String.mk ?_
  show (s.data.map pyLowerChar).map pyLowerChar = _
  rw [List.map_map]
  exact List.map_congr_left fun c _ => pyLowerChar_idem c

theorem runSearches_cons (env : Env) (s : JVal) (rest : List JVal) :
    runSearches env (s :: rest) =
      (do
        let r ← collectResult env s
        let rs ← runSearches env rest
        .ok (r :: rs)) := rfl

theorem runSearches_append {env : Env} {l1 l2 : List JVal}
    {rs1 rs2 : List ResultD}
    (h1 : runSearches env l1 = .ok rs1) (h2 : runSearches env l2 = .ok rs2) :
    runSearches env (l1 ++ l2) = .ok (rs1 ++ rs2) := by
  induction l1 generalizing rs1 with
  | nil =>
      cases h1
      simpa using h2
  | cons s rest ih =>
      rw [List.cons_append, runSearches_cons]
      rw [runSearches_cons] at h1
      rcases hc : collectResult env s with e | r
      · rw [hc] at h1
        simp only [bind, Except.bind] at h1
        cases h1
      · rw [hc] at h1
        simp only [bind, Except.bind] at h1
        rcases hr : runSearches env rest with e2 | rsr
        · rw [hr] at h1
          cases h1
        · rw [hr] at h1
          cases h1
          simp only [bind, Except.bind, ih hr, List.cons_append]

theorem validateSearches_first_missing (pre : List JVal) (i : Nat)
    (post : List JVal) (kvs0 : List (String × JVal))
    (hq : ∀ v ∈ pre, hasQueryKey v = true)
    (hmiss : (kvs0.map Prod.fst).contains "query" = false) :
    validateSearches i (pre ++ .jobj kvs0 :: post) =
      .ok (some (missingQueryMsg (i + pre.length))) := by
  induction pre generalizing i with
  | nil =>
      unfold validateSearches pyContainsStr
      simp only [bind, Except.bind, hmiss, List.nil_append, Bool.false_eq_true,
                 if_false, List.length_nil, Nat.add_zero]
  | cons v rest ih =>
      rw [List.cons_append]
      unfold validateSearches
      rw [pyContainsStr_of_hasQuery (hq v (List.mem_cons_self v rest))]
      simp only [bind, Except.bind, if_true]
      rw [ih (i + 1) fun x hx => hq x (List.mem_cons_of_mem _ hx)]
      have harith : i + 1 + rest.length = i + (rest.length + 1) := by omega
      rw [harith, List.length_cons]

/-- The rejection path of `parallel_search` for the first entry lacking a
`"query"` key: the whole batch is rejected with the indexed message, and
the output does not depend on the environment (no tool runs). -/
theorem parallelSearch_missing_query (env : Env) (kvs : List (String × JVal))
    (pre post : List JVal) (kvs0 : List (String × JVal))
    (hs : kvs.lookup "searches" = some (.jarr (pre ++ .jobj kvs0 :: post)))
    (h10 : (pre ++ .jobj kvs0 :: post).length ≤ 10)
    (hq : ∀ v ∈ pre, hasQueryKey v = true)
    (hmiss : (kvs0.map Prod.fst).contains "query" = false) :
    parallelSearch env (.ok (.jobj kvs)) = .ok (missingQueryMsg pre.length) := by
  have htr : pyTruthy (.jarr (pre ++ .jobj kvs0 :: post)) = true := by
    cases pre
    · rfl
    · rfl
  unfold parallelSearch
  simp only [pyGet, hs, Option.getD, bind, Except.bind]
  rw [if_neg (by simp [htr])]
  simp only [pyLen, bind, Except.bind]
  rw [if_neg (by omega)]
  simp only [pyIter, bind, Except.bind,
             validateSearches_first_missing pre 0 post kvs0 hq hmiss,
             Nat.zero_add, pure, Except.pure]

/-! ## Claim theorems -/

/-- **C1.**  For every valid batch — a JSON object whose `searches` list
has 1 to 10 entries, each entry an object carrying a `"query"` key (with
string-valued `type`/`query` fields, as the data model's
`ToolInvocationRequest` prescribes) — the report produced by
`parallel_search` contains exactly one result entry per submitted request:
`Forall₂` pairs each request with its own result (no request is silently
dropped) and the `totalCount` of the summary line equals the number of
requests. -/
theorem C1_one_result_per_request (env : Env) (kvs : List (String × JVal))
    (entries : List JVal)
    (hs : kvs.lookup "searches" = some (.jarr entries))
    (hne : entries ≠ []) (h10 : entries.length ≤ 10)
    (hv : ∀ v ∈ entries, validEntry v = true) :
    ∃ (rs : List ResultD) (blocks : List String),
      List.Forall₂ (fun s r => executeSingleSearch env s = .ok r) entries rs ∧
      rs.length = entries.length ∧
      blocks.length = entries.length ∧
      parallelSearch env (.ok (.jobj kvs)) =
        .ok (String.intercalate "\n"
          (("Parallel search completed: " ++
            toString (rs.countP (·.success)) ++ "/" ++
            toString entries.length ++ " successful\n") :: blocks)) := by
  obtain ⟨rs, blocks, hrs, hfa, hbl, hps⟩ :=
    parallelSearch_valid env kvs entries hs hne h10 hv
  have hlen : rs.length = entries.length := hfa.length_eq.symm
  refine ⟨rs, blocks, hfa, hlen, by rw [hbl, hlen], ?_⟩
  rw [hps]
  unfold summaryLine
  rw [hlen]

/-- Witness for C1: a one-request batch against the concrete environment
`env0`. -/
theorem C1_witness :
    ∃ (rs : List ResultD) (blocks : List String),
      List.Forall₂ (fun s r => executeSingleSearch env0 s = .ok r)
        [.jobj [("type", .jstr "web"), ("query", .jstr "Tesla")]] rs ∧
      rs.length = 1 ∧
      blocks.length = 1 ∧
      parallelSearch env0
          (.ok (.jobj [("searches",
            .jarr [.jobj [("type", .jstr "web"), ("query", .jstr "Tesla")]])])) =
        .ok (String.intercalate "\n"
          (("Parallel search completed: " ++
            toString (rs.countP (·.success)) ++ "/" ++
            toString (1 : Nat) ++ " successful\n") :: blocks)) := by
  have h := C1_one_result_per_request env0
    [("searches", .jarr [.jobj [("type", .jstr "web"), ("query", .jstr "Tesla")]])]
    [.jobj [("type", .jstr "web"), ("query", .jstr "Tesla")]]
    rfl (List.cons_ne_nil _ _) (by decide) (by decide)
  exact h

/-- **C2.**  The single-call executor never raises on a data-model request
(an object whose `type`/`query` fields, when present, are strings), and
for a resolvable kind it is faithful to the tool's outcome: a raising tool
yields `success = false` with the exception's message in the payload, a
returning tool yields its string with `success = true`. -/
theorem C2_executor_never_raises (env : Env) (ty q : String)
    (f : JVal → Except String String)
    (hf : getSearchFunction env ty = some f) :
    (∀ v : JVal, wfEntry v = true →
       ∃ r : ResultD, executeSingleSearch env v = .ok r) ∧
    (∀ e : String, f (.jstr q) = .error e →
       executeSingleSearch env (.jobj [("type", .jstr ty), ("query", .jstr q)]) =
         .ok ⟨.jstr ty, .jstr q, "Error: " ++ e, false⟩) ∧
    (∀ res : String, f (.jstr q) = .ok res →
       executeSingleSearch env (.jobj [("type", .jstr ty), ("query", .jstr q)]) =
         .ok ⟨.jstr ty, .jstr q, res, true⟩) := by
  refine ⟨fun v hv => ?_, fun e he => ?_, fun res hres => ?_⟩
  · obtain ⟨ty', q', r', b', h⟩ := executeSingleSearch_wf env hv
    exact ⟨_, h⟩
  · rw [executeSingleSearch_obj env [("type", .jstr ty), ("query", .jstr q)] ty rfl]
    simp only [hf]
    have hq : (List.lookup "query"
        [("type", JVal.jstr ty), ("query", JVal.jstr q)]).getD (JVal.jstr "") =
        .jstr q := rfl
    simp only [hq, he]
  · rw [executeSingleSearch_obj env [("type", .jstr ty), ("query", .jstr q)] ty rfl]
    simp only [hf]
    have hq : (List.lookup "query"
        [("type", JVal.jstr ty), ("query", JVal.jstr q)]).getD (JVal.jstr "") =
        .jstr q := rfl
    simp only [hq, hres]

/-- Witness for C2: against `env0`, the news tool raises `"boom"` and is
reported as a failure; the web tool returns `"ok"` and succeeds. -/
theorem C2_witness :
    executeSingleSearch env0 (.jobj [("type", .jstr "news"), ("query", .jstr "q")]) =
      .ok ⟨.jstr "news", .jstr "q", "Error: " ++ "boom", false⟩ ∧
    executeSingleSearch env0 (.jobj [("type", .jstr "web"), ("query", .jstr "q")]) =
      .ok ⟨.jstr "web", .jstr "q", "ok", true⟩ := by
  constructor
  · exact (C2_executor_never_raises env0 "news" "q" env0.news rfl).2.1 "boom" rfl
  · exact (C2_executor_never_raises env0 "web" "q" env0.web rfl).2.2 "ok" rfl

/-- **C3.**  A request whose `type` does not resolve to a registered kind
yields a failed result whose payload (`unknownTypeMsg`) names the unknown
kind and lists the valid kinds, and every other (well-formed) request in
the same batch still produces its own result: the fan-out over
`pre ++ [bad request] ++ post` returns one result per request. -/
theorem C3_unknown_kind_fails_alone (env : Env) (ty q : String)
    (hun : getSearchFunction env ty = none) :
    (executeSingleSearch env (.jobj [("type", .jstr ty), ("query", .jstr q)]) =
       .ok ⟨.jstr ty, .jstr q, unknownTypeMsg ty, false⟩) ∧
    (∀ pre post : List JVal,
       (∀ v ∈ pre, wfEntry v = true) → (∀ v ∈ post, wfEntry v = true) →
       ∃ rsPre rsPost : List ResultD,
         List.Forall₂ (fun s r => executeSingleSearch env s = .ok r) pre rsPre ∧
         List.Forall₂ (fun s r => executeSingleSearch env s = .ok r) post rsPost ∧
         runSearches env
             (pre ++ .jobj [("type", .jstr ty), ("query", .jstr q)] :: post) =
           .ok (rsPre ++ ⟨.jstr ty, .jstr q, unknownTypeMsg ty, false⟩ :: rsPost)) := by
  have hexec : executeSingleSearch env
      (.jobj [("type", .jstr ty), ("query", .jstr q)]) =
      .ok ⟨.jstr ty, .jstr q, unknownTypeMsg ty, false⟩ := by
    rw [executeSingleSearch_obj env [("type", .jstr ty), ("query", .jstr q)] ty rfl]
    simp only [hun]
    rfl
  refine ⟨hexec, fun pre post hpre hpost => ?_⟩
  obtain ⟨rsPre, hrsPre, hfaPre, _⟩ := runSearches_ok_of_wf env hpre
  obtain ⟨rsPost, hrsPost, hfaPost, _⟩ := runSearches_ok_of_wf env hpost
  refine ⟨rsPre, rsPost, hfaPre, hfaPost, ?_⟩
  have hmid : runSearches env
      (.jobj [("type", .jstr ty), ("query", .jstr q)] :: post) =
      .ok (⟨.jstr ty, .jstr q, unknownTypeMsg ty, false⟩ :: rsPost) := by
    rw [runSearches_cons, collectResult_of_ok hexec]
    simp only [bind, Except.bind, hrsPost]
  exact runSearches_append hrsPre hmid

/-- Witness for C3: kind `"quantum"` resolves to nothing; in a two-request
batch the other request still gets its own result. -/
theorem C3_witness :
    ∃ rsPre rsPost : List ResultD,
      List.Forall₂ (fun s r => executeSingleSearch env0 s = .ok r)
        [JVal.jobj [("type", .jstr "web"), ("query", .jstr "X")]] rsPre ∧
      List.Forall₂ (fun s r => executeSingleSearch env0 s = .ok r) [] rsPost ∧
      runSearches env0
          ([JVal.jobj [("type", .jstr "web"), ("query", .jstr "X")]] ++
            .jobj [("type", .jstr "quantum"), ("query", .jstr "Y")] :: []) =
        .ok (rsPre ++
          ⟨.jstr "quantum", .jstr "Y", unknownTypeMsg "quantum", false⟩ :: rsPost) :=
  (C3_unknown_kind_fails_alone env0 "quantum" "Y" rfl).2
    [.jobj [("type", .jstr "web"), ("query", .jstr "X")]] []
    (by decide) (by decide)

/-- **C4, counterexample.**  Truncation is *not* idempotent: for the
501-character string `s4` (498 `'a'`s, a period, `"bc"`) under the default
budget 500, the first truncation cuts at the boundary at index 498 and
appends `"..."` (total 502 characters); the second truncation then finds a
period at index 499 of its 500-character window — the first marker dot —
and cuts again, producing 503 characters. -/
theorem C4_counterexample :
    truncateResult (truncateResult s4 "x") "x" ≠ truncateResult s4 "x" := by
  rw [truncateResult_s4, truncateResult_s4_again]
  intro he
  have hdata : ((List.replicate 498 'a' ++ ['.']) ++ ['.']) ++ dots =
      (List.replicate 498 'a' ++ ['.']) ++ dots := congrArg String.data he
  have hlen := congrArg List.length hdata
  simp only [List.length_append, List.length_replicate, dots_length,
             List.length_singleton] at hlen
  omega

/-- **C4, amended.**  Truncation *is* idempotent whenever the first
application does not cut at a sentence/newline boundary located at
position `budget - 2` or `budget - 3`: that is, whenever the input already
fits the budget, or the truncation hard-cuts, or the boundary cut leaves
room for the three marker dots inside the budget (`cp + 4 ≤ budget`), or
the boundary sits at the very last window position (`cp = budget - 1`).
Only in the two excluded positions do the appended marker dots fall inside
the next 500-character window and create a fresh boundary. -/
theorem C4_amended_idempotent (s ty : String)
    (h : s.data.length ≤ truncLimit ty ∨
         pyGtLimitTimes07 (truncLimit ty) (cutPoint s.data (truncLimit ty)) = false ∨
         cutPoint s.data (truncLimit ty) + 4 ≤ (truncLimit ty : Int) ∨
         cutPoint s.data (truncLimit ty) = (truncLimit ty : Int) - 1) :
    truncateResult (truncateResult s ty) ty = truncateResult s ty :=
  congrArg String.mk (truncCore_idem h)

/-- Witness for the amended C4: a short string is a fixed point twice
over. -/
theorem C4_amended_witness :
    truncateResult (truncateResult "ab" "web") "web" = truncateResult "ab" "web" :=
  C4_amended_idempotent "ab" "web" (Or.inl (by decide))

/-- **C8.**  The length of a truncated result never exceeds the configured
per-kind budget (the `TRUNCATION_LIMITS` entry for the kind — 600 for web,
800 for wikipedia and arxiv, 700 for news — 500 for unlisted kinds) plus
the length of the `"..."` marker. -/
theorem C8_truncation_length_bound (s ty : String) :
    (truncateResult s ty).length ≤ truncLimit ty + ("..." : String).length := by
  have h := length_truncCore_le s.data (truncLimit ty)
  have hmark : ("..." : String).length = 3 := rfl
  rw [hmark]
  exact h

/-- **C9, counterexample.**  The claim says the boundary cut happens when
the last boundary lies *at or after* 70% of the budget.  On `s9` (350
`'a'`s, a period, 150 `'b'`s; budget 500) the last boundary sits exactly
at 70% of the budget (index 350), where the claim prescribes a boundary
cut but the source's strict comparison `350 > 350.0` fails and it
hard-cuts: the two outputs differ (503 vs 354 characters). -/
theorem C9_counterexample : truncateResult s9 "zzz" ≠ truncateSpecC9 s9 "zzz" := by
  rw [truncateResult_s9, truncateSpecC9_s9]
  intro he
  have hdata : s9.data.take 500 ++ dots = s9.data.take 351 ++ dots :=
    congrArg String.data he
  have hlen := congrArg List.length hdata
  simp only [List.length_append, List.length_take, dots_length, len_s9] at hlen
  omega

/-- **C9, amended.**  `truncate_result` behaves exactly as the claim
describes except that the boundary is used only when it lies *strictly
after* 70% of the budget, with the threshold `limit * 0.7` evaluated in
IEEE-754 double precision: the products are exact for budgets 500, 600 and
800, while for 700 the double product is `490 - 2^(-44)`, so (only) for
the news budget the effective test is "at or after 70%". -/
theorem C9_amended_truncation_follows_spec (s ty : String) :
    truncateResult s ty = truncateSpecAmended s ty :=
  congrArg String.mk (truncCore_eq_amendedCore s.data (truncLimit ty))

/-- A second concrete environment whose web tool raises `"down"`; used to
show that a tool really runs where the claims say none should. -/
def envDown : Env :=
  ⟨fun _ => .error "down", fun _ => .ok "ok",
   fun _ => .ok "ok", fun _ => .ok "ok"⟩

/-- **C5, counterexample.**  A request with no `"type"` key is *not*
treated as a request-level error: `execute_single_search` silently maps it
to the default registered kind `"web"` and (here) succeeds. -/
theorem C5_counterexample :
    executeSingleSearch env0 (.jobj [("query", .jstr "q")]) =
      .ok ⟨.jstr "web", .jstr "q", "ok", true⟩ ∧
    ¬ ∀ r : ResultD,
        executeSingleSearch env0 (.jobj [("query", .jstr "q")]) = .ok r →
        r.success = false := by
  refine ⟨rfl, fun hall => ?_⟩
  have h := hall ⟨.jstr "web", .jstr "q", "ok", true⟩ rfl
  exact absurd h (by decide)

/-- **C5, amended.**  An omitted `"type"` key is silently defaulted: the
request behaves exactly as if it had carried `"type": "web"` (so only a
present-but-unresolvable value produces a request-level failure). -/
theorem C5_amended_omitted_type_defaults_to_web (env : Env)
    (kvs : List (String × JVal)) (hno : kvs.lookup "type" = none) :
    executeSingleSearch env (.jobj kvs) =
      executeSingleSearch env (.jobj (("type", .jstr "web") :: kvs)) := by
  rw [executeSingleSearch_obj env kvs "web" (by rw [hno]; rfl),
      executeSingleSearch_obj env (("type", .jstr "web") :: kvs) "web" rfl]
  have hq : List.lookup "query" (("type", JVal.jstr "web") :: kvs) =
      List.lookup "query" kvs := by
    simp [List.lookup]
  rw [hq]

/-- Witness for the amended C5. -/
theorem C5_amended_witness :
    executeSingleSearch env0 (.jobj [("query", .jstr "q")]) =
      executeSingleSearch env0 (.jobj [("type", .jstr "web"), ("query", .jstr "q")]) :=
  C5_amended_omitted_type_defaults_to_web env0 [("query", .jstr "q")] rfl

/-- **C6, counterexample.**  A batch whose single request carries the
*empty string* as query is not rejected: validation passes (only the
*presence* of the key is checked), the tool is invoked with the empty
query, and a normal report is produced.  Under `env0` the batch succeeds
1/1; under `envDown` the same batch reports a failure — the output depends
on the tool, so a tool really executed. -/
theorem C6_counterexample :
    parallelSearch env0 (.ok (.jobj [("searches",
        .jarr [.jobj [("type", .jstr "web"), ("query", .jstr "")]])])) =
      .ok ("Parallel search completed: 1/1 successful\n\n" ++
           "--- [WEB] SUCCESS ---\nQuery: \nok\n") ∧
    parallelSearch envDown (.ok (.jobj [("searches",
        .jarr [.jobj [("type", .jstr "web"), ("query", .jstr "")]])])) =
      .ok ("Parallel search completed: 0/1 successful\n\n" ++
           "--- [WEB] FAILED ---\nQuery: \nError: down\n") := by
  constructor
  · rfl
  · rfl

/-- **C6, amended.**  Only a *missing* `"query"` key is rejected: a batch
whose first key-less entry sits after `pre` is rejected with the indexed
message, for every environment alike (no tool executes); while any batch
whose entries all carry a `"query"` key — the empty string included —
passes validation and yields a report. -/
theorem C6_amended_only_missing_key_rejected (env : Env)
    (kvs : List (String × JVal)) (pre post : List JVal)
    (kvs0 : List (String × JVal))
    (hs : kvs.lookup "searches" = some (.jarr (pre ++ .jobj kvs0 :: post)))
    (h10 : (pre ++ .jobj kvs0 :: post).length ≤ 10)
    (hq : ∀ v ∈ pre, hasQueryKey v = true)
    (hmiss : (kvs0.map Prod.fst).contains "query" = false) :
    (∀ env' : Env, parallelSearch env' (.ok (.jobj kvs)) =
       .ok (missingQueryMsg pre.length)) ∧
    (∀ (kvs2 : List (String × JVal)) (entries : List JVal),
       kvs2.lookup "searches" = some (.jarr entries) → entries ≠ [] →
       entries.length ≤ 10 → (∀ v ∈ entries, validEntry v = true) →
       ∃ (rs : List ResultD) (blocks : List String),
         blocks.length = entries.length ∧
         parallelSearch env (.ok (.jobj kvs2)) =
           .ok (String.intercalate "\n" (summaryLine rs :: blocks))) := by
  constructor
  · intro env'
    exact parallelSearch_missing_query env' kvs pre post kvs0 hs h10 hq hmiss
  · intro kvs2 entries hs2 hne2 h102 hv2
    obtain ⟨rs, blocks, _, hfa, hbl, hps⟩ :=
      parallelSearch_valid env kvs2 entries hs2 hne2 h102 hv2
    exact ⟨rs, blocks, by rw [hbl, hfa.length_eq.symm], hps⟩

/-- Witness for the amended C6. -/
theorem C6_amended_witness :
    parallelSearch env0
        (.ok (.jobj [("searches", .jarr [.jobj [("type", .jstr "web")]])])) =
      .ok (missingQueryMsg 0) ∧
    ∃ (rs : List ResultD) (blocks : List String),
      blocks.length = 1 ∧
      parallelSearch env0 (.ok (.jobj [("searches",
          .jarr [.jobj [("type", .jstr "web"), ("query", .jstr "")]])])) =
        .ok (String.intercalate "\n" (summaryLine rs :: blocks)) := by
  have h := C6_amended_only_missing_key_rejected env0
    [("searches", .jarr [.jobj [("type", .jstr "web")]])]
    [] [] [("type", .jstr "web")] rfl (by decide) (by decide) (by decide)
  refine ⟨h.1 env0, ?_⟩
  obtain ⟨rs, blocks, hbl, hps⟩ := h.2
    [("searches", .jarr [.jobj [("type", .jstr "web"), ("query", .jstr "")]])]
    [.jobj [("type", .jstr "web"), ("query", .jstr "")]]
    rfl (List.cons_ne_nil _ _) (by decide) (by decide)
  exact ⟨rs, blocks, hbl, hps⟩

/-- **C7, counterexample.**  `"[]"` is a malformed batch input (valid JSON
with no `searches` list), yet `parallel_search` does not return a
descriptive error string: `spec.get("searches", [])` on the parsed list
raises `AttributeError`, which escapes the function. -/
theorem C7_counterexample :
    parallelSearch env0 (.ok (.jarr [])) =
      .error (.attributeError ("object has no attribute " ++ "get")) ∧
    ∀ out : String, parallelSearch env0 (.ok (.jarr [])) ≠ .ok out := by
  refine ⟨rfl, fun out h => ?_⟩
  have h1 : parallelSearch env0 (.ok (.jarr [])) =
      .error (.attributeError ("object has no attribute " ++ "get")) := rfl
  rw [h1] at h
  exact Except.noConfusion h

/-- **C7, amended.**  For invalid JSON, and for JSON *objects* with a
missing/falsy `searches` value or an oversize list, `parallel_search`
returns a single descriptive error string whose value does not depend on
the tool environment (so no tool executes); but on valid JSON that is not
an object it instead raises `AttributeError`. -/
theorem C7_amended_malformed_batch_handling (env : Env) :
    (∀ e : String, parallelSearch env (.error e) = .ok (invalidJsonMsg e)) ∧
    (∀ kvs : List (String × JVal),
       pyTruthy ((kvs.lookup "searches").getD (.jarr [])) = false →
       parallelSearch env (.ok (.jobj kvs)) = .ok noSearchesMsg) ∧
    (∀ (kvs : List (String × JVal)) (entries : List JVal),
       kvs.lookup "searches" = some (.jarr entries) → 10 < entries.length →
       parallelSearch env (.ok (.jobj kvs)) = .ok maxSearchesMsg) ∧
    (∀ v : JVal, (∀ kvs : List (String × JVal), v ≠ .jobj kvs) →
       parallelSearch env (.ok v) =
         .error (.attributeError ("object has no attribute " ++ "get"))) := by
  refine ⟨fun e => rfl, fun kvs h => ?_, fun kvs entries hs h10 => ?_, fun v hv => ?_⟩
  · unfold parallelSearch
    simp only [pyGet, bind, Except.bind]
    rw [if_pos h]
    rfl
  · have hne : entries ≠ [] := by
      intro hnil
      rw [hnil] at h10
      simp at h10
    have htr : pyTruthy (.jarr entries) = true := by
      match entries, hne with
      | v :: rest, _ => rfl
    unfold parallelSearch
    simp only [pyGet, hs, Option.getD, bind, Except.bind]
    rw [if_neg (by simp [htr])]
    simp only [pyLen, bind, Except.bind]
    rw [if_pos (by omega)]
    rfl
  · match v, hv with
    | .jnull, _ => rfl
    | .jbool b, _ => rfl
    | .jnum n, _ => rfl
    | .jstr t, _ => rfl
    | .jarr xs, _ => rfl
    | .jobj kvs, hv => exact absurd rfl (hv kvs)

/-- Witness for the amended C7, one instance per malformed shape. -/
theorem C7_amended_witness :
    parallelSearch env0 (.error "Expecting value: line 1 column 1 (char 0)") =
      .ok (invalidJsonMsg "Expecting value: line 1 column 1 (char 0)") ∧
    parallelSearch env0 (.ok (.jobj [])) = .ok noSearchesMsg ∧
    parallelSearch env0 (.ok (.jobj [("searches",
        .jarr (List.replicate 11 (.jobj [("query", .jstr "q")])))])) =
      .ok maxSearchesMsg ∧
    parallelSearch env0 (.ok (.jnum 3)) =
      .error (.attributeError ("object has no attribute " ++ "get")) := by
  have h := C7_amended_malformed_batch_handling env0
  exact ⟨h.1 _, h.2.1 [] (by decide), h.2.2.1 _ _ rfl (by decide),
         h.2.2.2 (.jnum 3) (fun kvs hk => JVal.noConfusion hk)⟩

/-- **C10.**  Tool-kind resolution is case-insensitive — resolving a kind
and resolving its lowercase select the same registry entry (because the
registry lowercases its argument and lowercasing is idempotent) — while
the result's `type` field echoes the kind exactly as the caller wrote
it. -/
theorem C10_resolution_case_insensitive (env : Env) (ty : String) :
    getSearchFunction env ty = getSearchFunction env (pyLower ty) ∧
    (∀ (q : String) (r : ResultD),
       executeSingleSearch env (.jobj [("type", .jstr ty), ("query", .jstr q)]) =
         .ok r → r.type = .jstr ty) := by
  constructor
  · unfold getSearchFunction
    rw [pyLower_idem]
  · intro q r h
    rw [executeSingleSearch_obj env [("type", .jstr ty), ("query", .jstr q)] ty rfl]
      at h
    rcases hgs : getSearchFunction env ty with _ | f
    · simp only [hgs] at h
      cases h
      rfl
    · simp only [hgs] at h
      rcases hf : f ((List.lookup "query"
          [("type", JVal.jstr ty), ("query", JVal.jstr q)]).getD (JVal.jstr ""))
          with e | res
      · simp only [hf] at h
        cases h
        rfl
      · simp only [hf] at h
        cases h
        rfl

/-- Witness for C10: `"WEB"` resolves like `"web"` and the result echoes
`"WEB"` verbatim. -/
theorem C10_witness :
    getSearchFunction env0 "WEB" = getSearchFunction env0 (pyLower "WEB") ∧
    (⟨.jstr "WEB", .jstr "q", "ok", true⟩ : ResultD).type = .jstr "WEB" := by
  constructor
  · exact (C10_resolution_case_insensitive env0 "WEB").1
  · exact (C10_resolution_case_insensitive env0 "WEB").2 "q"
      ⟨.jstr "WEB", .jstr "q", "ok", true⟩ rfl
